import Mathlib

/-!
# Verification of the YouTube extractor tool

A shallow embedding, in Lean 4, of the parts of the
`DojoCodingLabs/youtube-extractor-tool` repository that the verified claims
are about:

* `yt_extractor/core/config.py` — `Config.validate`;
* `yt_extractor/core/recovery.py` — `RecoveryManager` and
  `SafeProcessor.safe_execute`;
* `yt_extractor/utils/chunking.py` — `chunk_transcript`;
* `yt_extractor/utils/retry.py` — `retry_on_conditions`;
* `yt_extractor/utils/queue_manager.py` — URL validation, `add`,
  `add_multiple`, `update_status`;
* `yt_extractor/core/extractor.py` — `_extract_video_id`.

Python strings are modeled as `String` / `List Char` (the repository only
manipulates ASCII-relevant parts of its strings; Unicode-specific behavior
of `str.lower`, `str.strip` and `\w` beyond ASCII is outside the model).
Python floats occurring in `TranscriptLine` timestamps are modeled as `Rat`;
no arithmetic on them is involved in any verified claim.  Fallible Python
code (raising `ValueError` / domain errors) is modeled with `Except`.
Filesystem persistence and in-process locks are not modeled: the queue and
the recovery checkpoint are modeled by their in-memory states, which is what
every claim is about.
-/

/-! ## Generic Python-string helpers -/

/-- ASCII model of Python `str.lower` (`Char.toLower` lowers exactly the
ASCII uppercase letters). -/
def strLower (s : String) : String := ⟨s.data.map Char.toLower⟩

/-- Substring occurrence on character lists: `subList pat l` is true iff
`pat` occurs contiguously inside `l` (Python's `pat in l`). -/
def subList (pat : List Char) : List Char → Bool
  | [] => pat.isEmpty
  | c :: rest => pat.isPrefixOf (c :: rest) || subList pat rest

/-- Python `pat in s` for strings. -/
def containsSubstr (s pat : String) : Bool := subList pat.data s.data

/-- Python `s.startswith(pre)`. -/
def startsW (pre s : String) : Bool := pre.data.isPrefixOf s.data

/-- ASCII model of the whitespace class stripped by Python `str.strip()`. -/
def isPySpace (c : Char) : Bool :=
  c == ' ' || c == '\t' || c == '\n' || c == '\r' || c == '\x0b' || c == '\x0c'

/-- Python `str.strip()` on a character list. -/
def pyStripChars (l : List Char) : List Char :=
  ((l.dropWhile isPySpace).reverse.dropWhile isPySpace).reverse

/-- Python truthiness of an `Optional[str]`: `None` and `""` are falsy. -/
def pyTruthy : Option String → Bool
  | none => false
  | some s => !s.data.isEmpty

/-! ## Configuration manager (`core/config.py`)

`Config.validate` reads `self.llm_model` (lower-cased) and the two API keys;
we model it as a pure function of those three values.  The environment
lookups themselves are not modeled. -/

namespace Config

/-- Model of `Config.validate` (config.py lines 83–95).  Returns `.ok ()` when the
method returns normally and `.error msg` when it raises
`ConfigurationError(msg)`.  The branching order is exactly the source's:
the "gpt"/"openai" substring test runs first, then "claude"/"anthropic",
and only in the final `elif` is the `ollama/` prefix consulted. -/
def validate (llmModel : String) (openaiKey anthropicKey : Option String) :
    Except String Unit :=
  let model := strLower llmModel
  if containsSubstr model "gpt" || containsSubstr model "openai" then
    if !pyTruthy openaiKey then .error "OPENAI_API_KEY required for OpenAI models"
    else .ok ()
  else if containsSubstr model "claude" || containsSubstr model "anthropic" then
    if !pyTruthy anthropicKey then .error "ANTHROPIC_API_KEY required for Anthropic models"
    else .ok ()
  else if !startsW "ollama/" model then .error ("Unsupported model: " ++ llmModel)
  else .ok ()

end Config

/-! ## Transcript chunking (`utils/chunking.py`) -/

/-- Model of `TranscriptLine` (core/models.py).  `start`/`duration` are Python floats,
modeled as rationals; only `text` matters to chunking. -/
structure TranscriptLine where
  start : Rat
  duration : Rat
  text : String
deriving DecidableEq

/-- The `len(line.text) + 1` character budget a line contributes
(chunking.py line 18, `+1` for the space separator). -/
def lineLen (l : TranscriptLine) : Int := (l.text.length : Int) + 1

/-- Running character count of a chunk: the sum of `lineLen` over it. -/
def sumLen (c : List TranscriptLine) : Int := (c.map lineLen).sum

/-- The loop of `chunk_transcript` (chunking.py lines 17–31): `cur` is
`current_chunk`, `curLen` is `current_length`. -/
def chunkAux (maxChars : Int) :
    List TranscriptLine → List TranscriptLine → Int → List (List TranscriptLine)
  | [], cur, _ => if cur.isEmpty then [] else [cur]
  | l :: rest, cur, curLen =>
    if cur ≠ [] ∧ curLen + lineLen l > maxChars then
      cur :: chunkAux maxChars rest [l] (lineLen l)
    else
      chunkAux maxChars rest (cur ++ [l]) (curLen + lineLen l)

/-- Model of `chunk_transcript(lines, max_chars)` (chunking.py lines 7–33). -/
def chunk_transcript (lines : List TranscriptLine) (maxChars : Int) :
    List (List TranscriptLine) :=
  chunkAux maxChars lines [] 0

/-! ## Data models (`core/models.py`) -/

/-- Model of `VideoMeta` (core/models.py lines 8–28). -/
structure VideoMeta where
  id : String
  url : String
  title : String
  channel : String
  duration_sec : Int
  published_at : String
  language : Option String
  tags : List String
deriving DecidableEq

/-! ## Recovery / checkpoint subsystem (`core/recovery.py`)

`ProcessingState` keeps one JSON record per video.  We model the record
(`{video_id, step, data, metadata, timestamp}`) by `SavedState`; the
`timestamp` field is never read by any operation and is omitted.  The
dynamically-typed `data` payloads and `metadata` dict values are modeled by
the universe `PyVal` (a `VideoMeta` dict, a transcript-line list, or an
opaque extracted-content dict).  The manager's state is `Option SavedState`
(`none` = no state file / corrupt file). -/

/-- A dynamically-typed payload stored in a checkpoint record. -/
inductive PyVal where
  /-- Dict `metadata.__dict__` of a `VideoMeta` (reconstructible by `VideoMeta(**data)`). -/
  | vMeta (m : VideoMeta)
  /-- a list of `{start, duration, text}` transcript-line dicts. -/
  | vLines (t : List TranscriptLine)
  /-- an opaque extracted-content dict (recovery never inspects it). -/
  | vContent (tag : String)
deriving DecidableEq

/-- One saved checkpoint record (`save_state` writes the whole record;
each save replaces the previous one). -/
structure SavedState where
  video_id : String
  step : String
  data : PyVal
  metadata : List (String × PyVal)
deriving DecidableEq

/-- The fixed step ordering of `can_recover_from` (recovery.py lines 80–86). -/
def recoverySteps : List String :=
  ["metadata_fetched", "transcript_fetched", "chunks_processed",
   "content_extracted", "markdown_generated"]

/-- Model of `list.index` for the step list (all call sites use members of the list,
so the `ValueError` of Python's `.index` on a missing element never fires). -/
def stepIdx (s : String) : List String → Nat
  | [] => 0
  | b :: r => if s == b then 0 else stepIdx s r + 1

/-- Model of `RecoveryManager.can_recover_from(step)` (recovery.py lines 74–89):
true iff a record exists, its step is one of the five known steps, and its
position is at or beyond the requested step's position. -/
def can_recover_from (st : Option SavedState) (step : String) : Bool :=
  match st with
  | none => false
  | some s =>
    recoverySteps.contains s.step &&
      decide (stepIdx step recoverySteps ≤ stepIdx s.step recoverySteps)

/-- Model of `RecoveryManager.recover_metadata()` (recovery.py lines 91–116).  Any
reconstruction failure inside the `try` is caught and yields `None`; in the
typed model that is the non-`vMeta` branches. -/
def recover_metadata (st : Option SavedState) : Option VideoMeta :=
  match st with
  | none => none
  | some s =>
    if !can_recover_from (some s) "metadata_fetched" then none
    else if s.step == "metadata_fetched" then
      match s.data with
      | .vMeta m => some m
      | _ => none
    else
      match s.metadata.lookup "video_meta" with
      | some (.vMeta m) => some m
      | _ => none

/-- Model of `RecoveryManager.recover_transcript()` (recovery.py lines 118–136).
For `chunks_processed` the transcript is read from
`metadata.get("original_transcript", [])`, so a missing key yields the
empty transcript, not `None`. -/
def recover_transcript (st : Option SavedState) : Option (List TranscriptLine) :=
  match st with
  | none => none
  | some s =>
    if s.step == "transcript_fetched" then
      match s.data with
      | .vLines t => some t
      | _ => none
    else if s.step == "chunks_processed" then
      match s.metadata.lookup "original_transcript" with
      | some (.vLines t) => some t
      | some _ => none
      | none => some []
    else none

/-- Model of `RecoveryManager.recover_extracted_content()` (recovery.py lines 138–148). -/
def recover_extracted_content (st : Option SavedState) : Option PyVal :=
  match st with
  | none => none
  | some s => if s.step == "content_extracted" then some s.data else none

/-- Model of `RecoveryManager.save_metadata(metadata)` (recovery.py lines 150–155):
writes step `metadata_fetched` with `data = metadata.__dict__` and default
(empty) carried metadata, replacing whatever record existed. -/
def save_metadata (vid : String) (m : VideoMeta) : SavedState :=
  { video_id := vid, step := "metadata_fetched", data := .vMeta m, metadata := [] }

/-- Model of `RecoveryManager.save_transcript(transcript)` (recovery.py lines
157–178): writes step `transcript_fetched`; if the prior record's step was
`metadata_fetched` its data is carried forward as `metadata["video_meta"]`. -/
def save_transcript (vid : String) (t : List TranscriptLine)
    (prior : Option SavedState) : SavedState :=
  let em : List (String × PyVal) :=
    match prior with
    | some s => if s.step == "metadata_fetched" then [("video_meta", s.data)] else []
    | none => []
  { video_id := vid, step := "transcript_fetched", data := .vLines t, metadata := em }

/-- The set of names for which `hasattr(self.recovery, "recover_" + name)`
holds: `RecoveryManager` defines exactly `recover_metadata`,
`recover_transcript` and `recover_extracted_content`. -/
def hasRecoveryMethod (n : String) : Bool :=
  n == "metadata" || n == "transcript" || n == "extracted_content"

/-- Dispatch of `getattr(self.recovery, "recover_" + name)()` for the names that have a
recovery method, injected into the dynamic value universe. -/
def recoverDispatch (n : String) (st : Option SavedState) : Option PyVal :=
  if n == "metadata" then (recover_metadata st).map PyVal.vMeta
  else if n == "transcript" then (recover_transcript st).map PyVal.vLines
  else if n == "extracted_content" then recover_extracted_content st
  else none

/-- Model of `SafeProcessor.safe_execute(operation_name, fn, ...)` (recovery.py lines
231–263).  The invocation of `fn` is modeled by its outcome `result`
(`.ok v` = returned `v`, `.error e` = raised an exception with message `e`);
`st` is the manager's saved state consulted by the recovery methods.  On
failure the method named `"recover_" + operation_name.lower()` is looked up
and, when present and yielding a value, that value is returned; otherwise
`YouTubeExtractorError(f"{op} failed and recovery not possible: {e}")` is
raised. -/
def safe_execute (opName : String) (st : Option SavedState)
    (result : Except String PyVal) : Except String PyVal :=
  match result with
  | .ok v => .ok v
  | .error e =>
    if hasRecoveryMethod (strLower opName) then
      match recoverDispatch (strLower opName) st with
      | some v => .ok v
      | none => .error (opName ++ " failed and recovery not possible: " ++ e)
    else .error (opName ++ " failed and recovery not possible: " ++ e)

/-! ## Retry framework (`utils/retry.py`)

`retry_on_conditions(conditions, max_attempts, ...)` wraps a function; the
wrapped call's behavior on attempt `n` is modeled by an oracle
`f : Nat → Except E A` (`.ok a` = returned `a`, `.error e` = raised `e`).
Delays (`time.sleep`) have no observable effect in the model and are
dropped.  The distinguishable outcomes of the wrapper are: return a value,
raise `RetryError` wrapping the last error, or re-raise the original error
object unchanged. -/

/-- Outcome of a `retry_on_conditions`-wrapped call. -/
inductive RetryResult (E A : Type) where
  /-- the wrapped function returned normally. -/
  | ok (a : A)
  /-- Outcome: `RetryError` wrapping the last error was raised. -/
  | exhausted (e : E)
  /-- the original exception was re-raised unchanged (`raise last_exception`). -/
  | original (e : E)
  /-- Degenerate `max_attempts = 0` case: the loop never runs and Python's
  `raise last_exception` raises `None` (a `TypeError`). -/
  | invalid
deriving DecidableEq

/-- Model of `should_retry` (retry.py lines 147–148): some condition matches. -/
def shouldRetry {E : Type} (conds : List (E → Bool)) (e : E) : Bool :=
  conds.any fun c => c e

/-- The `for attempt in range(max_attempts)` loop of `retry_on_conditions`
(retry.py lines 152–175).  `fuel` is the number of attempts still allowed
including the current one, so `fuel = 1` is the `attempt == max_attempts-1`
case; the post-loop `if should_retry(last): raise RetryError else raise
last` is inlined at the two loop-exit points, which is observably
identical. -/
def retryGo {E A : Type} (conds : List (E → Bool)) (f : Nat → Except E A) :
    Nat → Nat → RetryResult E A
  | _, 0 => .invalid
  | attempt, fuel + 1 =>
    match f attempt with
    | .ok a => .ok a
    | .error e =>
      if fuel == 0 || !shouldRetry conds e then
        if shouldRetry conds e then .exhausted e else .original e
      else retryGo conds f (attempt + 1) fuel

/-- Model of `retry_on_conditions(conditions, max_attempts, ...)` applied to a call
whose per-attempt outcomes are `f` (retry.py lines 132–178). -/
def retry_on_conditions {E A : Type} (conds : List (E → Bool))
    (maxAttempts : Nat) (f : Nat → Except E A) : RetryResult E A :=
  retryGo conds f 0 maxAttempts

/-! ## Queue manager (`utils/queue_manager.py`)

The queue's persistent JSON mirror, the in-process lock and the atomic
save-with-retry are not modeled; every claim is about the in-memory item
list guarded by them.  `datetime.now()` and the md5-derived item id are
modeled as explicit arguments (`addedAt`, `iid`) supplied by the caller. -/

/-- Model of `QueueStatus` (queue_manager.py lines 24–29). -/
inductive QueueStatus where
  | pending
  | processing
  | completed
  | failed
deriving DecidableEq, BEq

/-- Model of `QueueItem` (queue_manager.py lines 32–52). -/
structure QueueItem where
  url : String
  category : Option String
  status : QueueStatus
  title : Option String
  channel : Option String
  error : Option String
  output_path : Option String
  added_at : String
  processed_at : Option String
  id : String
deriving DecidableEq

/-- The validation failures `add` raises as `ValueError`
(queue_manager.py lines 193, 107, 201, 205). -/
inductive QueueError where
  /-- Message `Invalid YouTube URL: <url>`. -/
  | invalidUrl (url : String)
  /-- Message `Invalid category: contains dangerous characters`. -/
  | dangerousCategory
  /-- Message `Queue is full (maximum <max_size> items)`. -/
  | queueFull (maxSize : Nat)
  /-- Message `URL already in queue: <url>`. -/
  | duplicate (url : String)
deriving DecidableEq

/-- Python `\w` (ASCII part): letters, digits, underscore. -/
def isWordChar (c : Char) : Bool := c.isAlphanum || c == '_'

/-- The character class `[a-zA-Z0-9_-]` of the extractor's id patterns
(equivalently `[\w-]` of the queue pattern, ASCII part). -/
def isIdChar (c : Char) : Bool := c.isAlphanum || c == '_' || c == '-'

/-- Helper: `stripPre pre l` returns the remainder of `l` after the literal prefix
`pre`, or `none` if `pre` is not a prefix — the building block for matching
the regex literals. -/
def stripPre : List Char → List Char → Option (List Char)
  | [], l => some l
  | _ :: _, [] => none
  | p :: ps, c :: cs => if p == c then stripPre ps cs else none

/-- Python regex `.*$` applied to the rest of the subject (no `DOTALL`,
no `MULTILINE`): `.` cannot match a newline and `$` matches at the end of
the string or just before a trailing newline, so the tail is accepted iff
it contains no newline except possibly a final one. -/
def dotStarDollar (r : List Char) : Bool :=
  let r' := if r.getLast? == some '\n' then r.dropLast else r
  !r'.contains '\n'

/-- Model of `YOUTUBE_URL_PATTERN.match` (queue_manager.py lines 16–18): the anchored
pattern `^https?://(www\.)?(youtube\.com/watch\?v=|youtu\.be/)[\w-]+.*$`.
The optional groups are deterministic here: a remainder can start with at
most one of the branch literals, so prefix-testing in order is equivalent to
the regex's backtracking.  `[\w-]+.*$` holds iff the first remaining
character is in `[\w-]` and the rest satisfies `.*$` (consuming more
`[\w-]` characters into the `+` never helps, since word characters are
never newlines). -/
def queueReMatch (l : List Char) : Bool :=
  match (stripPre "https://".data l).orElse (fun _ => stripPre "http://".data l) with
  | none => false
  | some l1 =>
    let l2 := match stripPre "www.".data l1 with
      | some x => x
      | none => l1
    match (stripPre "youtube.com/watch?v=".data l2).orElse
        (fun _ => stripPre "youtu.be/".data l2) with
    | none => false
    | some l3 =>
      match l3 with
      | [] => false
      | c :: rest => (isWordChar c || c == '-') && dotStarDollar rest

/-- Model of `_validate_youtube_url(url)` (queue_manager.py lines 69–81): false for
an empty string, otherwise the anchored pattern applied to `url.strip()`. -/
def validate_youtube_url (s : String) : Bool :=
  if s.data.isEmpty then false else queueReMatch (pyStripChars s.data)

/-- Model of `_sanitize_category(category)` (queue_manager.py lines 84–109):
`None`/blank → no category; a category containing `..`, a backslash or a
NUL raises `ValueError`; otherwise the stripped category. -/
def sanitizeCategory : Option String → Except QueueError (Option String)
  | none => .ok none
  | some c =>
    let c' := pyStripChars c.data
    if c'.isEmpty then .ok none
    else if subList "..".data c' || c'.contains '\\' || c'.contains '\x00' then
      .error .dangerousCategory
    else .ok (some ⟨c'⟩)

/-- Model of `ProcessingQueue.add(url, category, title, channel)` (queue_manager.py
lines 173–211): strip and validate the URL, sanitize the category, enforce
the size limit, reject duplicates whose existing status is not `failed`,
then append a fresh pending item.  `addedAt` and `iid` stand for
`datetime.now().isoformat()` and the md5-derived 8-hex id. -/
def q_add (items : List QueueItem) (maxSize : Nat) (url : String)
    (category : Option String) (title channel : Option String)
    (addedAt iid : String) : Except QueueError (List QueueItem × QueueItem) :=
  let u : String := ⟨pyStripChars url.data⟩
  if !validate_youtube_url u then .error (.invalidUrl u)
  else
    match sanitizeCategory category with
    | .error e => .error e
    | .ok cat =>
      if maxSize ≤ items.length then .error (.queueFull maxSize)
      else if items.any (fun it => it.url == u && !(it.status == QueueStatus.failed)) then
        .error (.duplicate u)
      else
        let item : QueueItem :=
          { url := u, category := cat, status := .pending, title := title,
            channel := channel, error := none, output_path := none,
            added_at := addedAt, processed_at := none, id := iid }
        .ok (items ++ [item], item)

/-- Model of `ProcessingQueue.add_multiple(urls, category)` (queue_manager.py lines
213–235): per line, strip, skip blank and `#`-prefixed lines, call `add`,
and `except ValueError: continue` — every `ValueError` raised by `add`
(invalid URL, dangerous category, full queue, duplicate) is silently
swallowed.  Returns the final item list and the list of items actually
added.  `fresh k` supplies the timestamp/id pair for the `k`-th successful
add. -/
def q_add_multiple (fresh : Nat → String × String) (maxSize : Nat)
    (category : Option String) :
    List String → List QueueItem → Nat → List QueueItem × List QueueItem
  | [], items, _ => (items, [])
  | url :: rest, items, k =>
    let u : String := ⟨pyStripChars url.data⟩
    if u.data.isEmpty || u.data.head? == some '#' then
      q_add_multiple fresh maxSize category rest items k
    else
      match q_add items maxSize u category none none (fresh k).1 (fresh k).2 with
      | .ok (items', it) =>
        let r := q_add_multiple fresh maxSize category rest items' (k + 1)
        (r.1, it :: r.2)
      | .error _ => q_add_multiple fresh maxSize category rest items k

/-- The per-item mutation of `update_status` (queue_manager.py lines
300–308): the status is set unconditionally; `error` and `output_path` are
only overwritten when the argument is truthy; `processed_at` is stamped on
transitions into `completed`/`failed`. -/
def updStatusItem (it : QueueItem) (st : QueueStatus) (err out : Option String)
    (now : String) : QueueItem :=
  { it with
    status := st
    error := if pyTruthy err then err else it.error
    output_path := if pyTruthy out then out else it.output_path
    processed_at :=
      if st == QueueStatus.completed || st == QueueStatus.failed then some now
      else it.processed_at }

/-- Model of `ProcessingQueue.update_status(item_id, status, error, output_path)`
(queue_manager.py lines 287–311): mutate the first item whose id matches,
else raise `ValueError(f"Item not found: {item_id}")`.  `now` stands for
`datetime.now().isoformat()`. -/
def q_update_status : List QueueItem → String → QueueStatus →
    Option String → Option String → String → Except String (List QueueItem)
  | [], iid, _, _, _, _ => .error ("Item not found: " ++ iid)
  | it :: rest, iid, st, err, out, now =>
    if it.id == iid then .ok (updStatusItem it st err out now :: rest)
    else
      match q_update_status rest iid st err out now with
      | .ok rest' => .ok (it :: rest')
      | .error e => .error e

/-- Rank of a status along the documented one-directional ordering
`pending → processing → completed/failed` (the two terminal statuses share
the final rank). -/
def statusRank : QueueStatus → Nat
  | .pending => 0
  | .processing => 1
  | .completed => 2
  | .failed => 2

/-! ## Video-id extraction (`core/extractor.py`, `_extract_video_id`)

`_extract_video_id` (extractor.py lines 89–106) runs `re.search` with
`(?:youtube\.com/watch\?v=|youtu\.be/|youtube\.com/embed/)([a-zA-Z0-9_-]{11})`,
then with `youtube\.com/.*[?&]v=([a-zA-Z0-9_-]{11})`, and otherwise falls
back to the first 11 hex characters of `hashlib.md5(url)`.  The md5 digest
is an external-library boundary, modeled as an oracle argument. -/

/-- Model of `([a-zA-Z0-9_-]{11})`: capture exactly 11 id characters at the head of
the remainder. -/
def takeId11 (r : List Char) : Option (List Char) :=
  let c := r.take 11
  if c.length = 11 ∧ c.all isIdChar then some c else none

/-- One `re.search` position of the first extractor pattern: the three
alternative literals are mutually exclusive prefixes, so testing them in
the regex's order is exact. -/
def tryAt1 (s : List Char) : Option (List Char) :=
  match stripPre "youtube.com/watch?v=".data s with
  | some r => takeId11 r
  | none =>
    match stripPre "youtu.be/".data s with
    | some r => takeId11 r
    | none =>
      match stripPre "youtube.com/embed/".data s with
      | some r => takeId11 r
      | none => none

/-- Model of `re.search` of the first extractor pattern: leftmost matching
position wins. -/
def searchPat1 : List Char → Option (List Char)
  | [] => none
  | c :: rest => (tryAt1 (c :: rest)).orElse fun _ => searchPat1 rest

/-- Model of `[?&]v=([a-zA-Z0-9_-]{11})` anchored at the current position. -/
def vMatchAt (r : List Char) : Option (List Char) :=
  match r with
  | c :: 'v' :: '=' :: rest =>
    if (c == '?' || c == '&') && decide ((rest.take 11).length = 11) &&
        (rest.take 11).all isIdChar then
      some (rest.take 11)
    else none
  | _ => none

/-- The greedy `.*` of the second pattern: prefer the longest consumable
(newline-free) prefix, i.e. the rightmost reachable `[?&]v=` occurrence. -/
def pat2Greedy : List Char → Option (List Char)
  | [] => none
  | c :: rest =>
    if c == '\n' then vMatchAt (c :: rest)
    else (pat2Greedy rest).orElse (fun _ => vMatchAt (c :: rest))

/-- Model of `re.search` of `youtube\.com/.*[?&]v=([a-zA-Z0-9_-]{11})`: leftmost
`youtube.com/` occurrence, then the greedy tail. -/
def searchPat2 : List Char → Option (List Char)
  | [] => none
  | c :: rest =>
    match stripPre "youtube.com/".data (c :: rest) with
    | some r =>
      match pat2Greedy r with
      | some v => some v
      | none => searchPat2 rest
    | none => searchPat2 rest

/-- Model of `_extract_video_id(url)` (extractor.py lines 89–106); `md5hex` is the
hex digest oracle for the fallback. -/
def extract_video_id (md5hex : List Char → List Char) (url : List Char) :
    List Char :=
  match searchPat1 url with
  | some v => v
  | none =>
    match searchPat2 url with
    | some v => v
    | none => (md5hex url).take 11

/-! ## Theorems -/

/-! ### C1 — `Config.validate` on `ollama/`-prefixed models -/

/-- C1 (counterexample): the claim "every `ollama/`-prefixed model validates
with both keys absent, including ones whose remainder contains `gpt` or
`claude`" is false: `"ollama/gpt-oss"` begins with `ollama/`, yet
`validate` takes the `"gpt" in model` branch first and fails for the
missing OpenAI key (and `"ollama/claude-v1"` likewise fails for the
Anthropic key). -/
theorem config_validate_ollama_gpt_counterexample :
    startsW "ollama/" "ollama/gpt-oss" = true ∧
    Config.validate "ollama/gpt-oss" none none =
      .error "OPENAI_API_KEY required for OpenAI models" ∧
    startsW "ollama/" "ollama/claude-v1" = true ∧
    Config.validate "ollama/claude-v1" none none =
      .error "ANTHROPIC_API_KEY required for Anthropic models" :=
  ⟨rfl, rfl, rfl, rfl⟩

/-- C1 (amended): an `ollama/`-prefixed model validates without any key
requirement provided its lower-cased name contains none of the substrings
`gpt`, `openai`, `claude`, `anthropic` — those substring branches run
before the `ollama/` prefix test and take precedence. -/
theorem config_validate_ollama_ok (model : String) (okey akey : Option String)
    (h1 : containsSubstr (strLower model) "gpt" = false)
    (h2 : containsSubstr (strLower model) "openai" = false)
    (h3 : containsSubstr (strLower model) "claude" = false)
    (h4 : containsSubstr (strLower model) "anthropic" = false)
    (h5 : startsW "ollama/" (strLower model) = true) :
    Config.validate model okey akey = .ok () := by
  simp only [Config.validate, h1, h2, h3, h4, h5]
  rfl

/-- C1 witness: the amended theorem applies to the concrete key-less Ollama
model `"ollama/llama3"`. -/
theorem config_validate_ollama_ok_witness :
    containsSubstr (strLower "ollama/llama3") "gpt" = false ∧
    startsW "ollama/" (strLower "ollama/llama3") = true ∧
    Config.validate "ollama/llama3" none none = .ok () :=
  ⟨by decide, by decide,
    config_validate_ollama_ok "ollama/llama3" none none
      (by decide) (by decide) (by decide) (by decide) (by decide)⟩

/-! ### C2 — `safe_execute "llm_processing"` never recovers -/

/-- C2: whatever the saved checkpoint state, when the wrapped function of
the `"llm_processing"` stage raises, `safe_execute` never substitutes a
recovered value — `RecoveryManager` has no `recover_llm_processing`
method — and always re-raises the failure wrapped as a domain error naming
the operation. -/
theorem safe_execute_llm_processing_propagates (st : Option SavedState) (e : String) :
    safe_execute "llm_processing" st (.error e) =
      .error ("llm_processing failed and recovery not possible: " ++ e) := by
  have h : hasRecoveryMethod (strLower "llm_processing") = false := by decide
  simp [safe_execute, h]

/-! ### C3 — `chunk_transcript` partitions its input and closes chunks
exactly at budget overflow -/

/-- The chunks produced by the loop concatenate to the pending chunk
followed by the remaining input. -/
theorem chunkAux_join (mc : Int) (ls : List TranscriptLine) :
    ∀ (cur : List TranscriptLine) (cl : Int),
      (chunkAux mc ls cur cl).flatten = cur ++ ls := by
  induction ls with
  | nil =>
    intro cur cl
    rcases cur with _ | ⟨a, t⟩ <;> simp [chunkAux]
  | cons l rest ih =>
    intro cur cl
    simp only [chunkAux]
    split
    · simp [ih]
    · simp [ih]

/-- The loop never emits an empty chunk. -/
theorem chunkAux_ne_nil (mc : Int) (ls : List TranscriptLine) :
    ∀ (cur : List TranscriptLine) (cl : Int),
      ∀ c ∈ chunkAux mc ls cur cl, c ≠ [] := by
  induction ls with
  | nil =>
    intro cur cl c hc
    rcases cur with _ | ⟨a, t⟩
    · simp [chunkAux] at hc
    · simp [chunkAux] at hc
      simp [hc]
  | cons l rest ih =>
    intro cur cl c hc
    simp only [chunkAux] at hc
    split at hc
    case isTrue h =>
      rcases List.mem_cons.mp hc with rfl | hc'
      · exact h.1
      · exact ih [l] (lineLen l) c hc'
    case isFalse h =>
      exact ih (cur ++ [l]) (cl + lineLen l) c hc

/-- The first chunk the loop returns extends the pending chunk (when the
pending chunk is non-empty): the loop only ever appends to it until it is
closed.  Needed to identify the head line of the next chunk at a chunk
boundary. -/
theorem chunkAux_head (mc : Int) (ls : List TranscriptLine) :
    ∀ (cur : List TranscriptLine) (cl : Int), cur ≠ [] →
      ∃ ext cs, chunkAux mc ls cur cl = (cur ++ ext) :: cs := by
  induction ls with
  | nil =>
    intro cur cl h
    refine ⟨[], [], ?_⟩
    simp only [chunkAux]
    rw [if_neg (by simpa using h)]
    simp
  | cons l rest ih =>
    intro cur cl h
    simp only [chunkAux]
    split
    · exact ⟨[], chunkAux mc rest [l] (lineLen l), by simp⟩
    · obtain ⟨ext, cs, heq⟩ := ih (cur ++ [l]) (cl + lineLen l) (by simp)
      exact ⟨l :: ext, cs, by rw [heq]; simp⟩

/-- Consecutive chunks satisfy the overflow condition: the sum of
`len(text)+1` over a closed chunk, plus the budget of the line that starts
the next chunk, exceeds `max_chars` — chunks are only closed when adding
the next line would overflow. -/
theorem chunkAux_chain (mc : Int) (ls : List TranscriptLine) :
    ∀ (cur : List TranscriptLine) (cl : Int), cl = sumLen cur →
      List.Chain' (fun c c' => ∀ x ∈ c'.head?, sumLen c + lineLen x > mc)
        (chunkAux mc ls cur cl) := by
  induction ls with
  | nil =>
    intro cur cl _
    simp only [chunkAux]
    split <;> simp
  | cons l rest ih =>
    intro cur cl hcl
    simp only [chunkAux]
    split
    case isTrue h =>
      obtain ⟨ext, cs, heq⟩ := chunkAux_head mc rest [l] (lineLen l) (by simp)
      rw [heq, List.chain'_cons]
      constructor
      · intro x hx
        simp only [List.singleton_append, List.head?_cons, Option.mem_def,
          Option.some.injEq] at hx
        rw [← hx, ← hcl]
        exact h.2
      · rw [← heq]
        exact ih [l] (lineLen l) (by simp [sumLen])
    case isFalse h =>
      exact ih (cur ++ [l]) (cl + lineLen l) (by simp [sumLen, hcl])

/-- Inside any returned chunk, no proper extension overflowed: whenever a
line `l` follows a non-empty prefix `p` of a chunk, adding `l` to `p` kept
the running count within `max_chars` — otherwise the loop would have closed
the chunk there. -/
theorem chunkAux_internal (mc : Int) (ls : List TranscriptLine) :
    ∀ (cur : List TranscriptLine) (cl : Int), cl = sumLen cur →
      (∀ p x q, cur = p ++ x :: q → p ≠ [] → sumLen p + lineLen x ≤ mc) →
      ∀ c ∈ chunkAux mc ls cur cl, ∀ p x q, c = p ++ x :: q → p ≠ [] →
        sumLen p + lineLen x ≤ mc := by
  induction ls with
  | nil =>
    intro cur cl _ hgood c hc
    rcases cur with _ | ⟨a, t⟩
    · simp [chunkAux] at hc
    · simp [chunkAux] at hc
      rw [hc]
      exact hgood
  | cons l rest ih =>
    intro cur cl hcl hgood c hc
    simp only [chunkAux] at hc
    split at hc
    case isTrue h =>
      rcases List.mem_cons.mp hc with rfl | hc'
      · exact hgood
      · refine ih [l] (lineLen l) (by simp [sumLen]) ?_ c hc'
        intro p x q hpq hp
        rcases p with _ | ⟨b, bs⟩
        · exact absurd rfl hp
        · simp only [List.cons_append, List.cons.injEq] at hpq
          exact absurd hpq.2 (by simp)
    case isFalse h =>
      refine ih (cur ++ [l]) (cl + lineLen l) (by simp [sumLen, hcl]) ?_ c hc
      intro p x q hpq hp
      rcases List.append_eq_append_iff.mp hpq with ⟨a', ha1, ha2⟩ | ⟨c', hc1, hc2⟩
      · -- [l] = a' ++ x :: q, so a' = [], q = [], x = l, p = cur
        rcases a' with _ | ⟨b, bs⟩
        · simp only [List.nil_append, List.cons.injEq] at ha2
          obtain ⟨rfl, rfl⟩ := ha2
          simp only [List.append_nil] at ha1
          subst ha1
          rcases not_and_or.mp h with hcur | hle
          · exact absurd (by simpa using hcur) (by simpa using hp)
          · rw [← hcl]; omega
        · simp only [List.cons_append, List.cons.injEq] at ha2
          exact absurd ha2.2 (by simp)
      · -- x :: q = c' ++ [l]
        rcases c' with _ | ⟨b, bs⟩
        · simp only [List.nil_append, List.cons.injEq] at hc2
          obtain ⟨rfl, rfl⟩ := hc2
          simp only [List.append_nil] at hc1
          subst hc1
          rcases not_and_or.mp h with hcur | hle
          · exact absurd (by simpa using hcur) (by simpa using hp)
          · rw [← hcl]; omega
        · simp only [List.cons_append, List.cons.injEq] at hc2
          obtain ⟨rfl, rfl⟩ := hc2
          exact hgood p x bs hc1 hp

/-- C3: `chunk_transcript` splits its input into non-empty chunks whose
concatenation is exactly the input (same lines, original order, nothing
lost, duplicated or split), and a chunk boundary occurs exactly when the
current chunk is non-empty and adding the next line's `len(text)+1` to the
running count would exceed `max_chars`: across every boundary the closed
chunk plus the next chunk's first line overflows the budget, and inside a
chunk no line's addition to a non-empty prefix ever did. -/
theorem chunk_transcript_partitions (lines : List TranscriptLine) (mc : Int) :
    (chunk_transcript lines mc).flatten = lines ∧
    (∀ c ∈ chunk_transcript lines mc, c ≠ []) ∧
    List.Chain' (fun c c' => ∀ x ∈ c'.head?, sumLen c + lineLen x > mc)
      (chunk_transcript lines mc) ∧
    (∀ c ∈ chunk_transcript lines mc, ∀ p x q, c = p ++ x :: q → p ≠ [] →
      sumLen p + lineLen x ≤ mc) := by
  refine ⟨?_, ?_, ?_, ?_⟩
  · simpa using chunkAux_join mc lines [] 0
  · exact chunkAux_ne_nil mc lines [] 0
  · exact chunkAux_chain mc lines [] 0 (by simp [sumLen])
  · refine chunkAux_internal mc lines [] 0 (by simp [sumLen]) ?_
    intro p x q hpq _
    rcases p with _ | ⟨b, bs⟩ <;> simp at hpq

/-- C3 witness: on a concrete transcript with `max_chars = 8` the function
produces two chunks and their concatenation restores the input. -/
theorem chunk_transcript_partitions_witness :
    chunk_transcript [⟨0, 1, "aaaa"⟩, ⟨1, 1, "bbb"⟩, ⟨2, 1, "cc"⟩] 8 =
      [[⟨0, 1, "aaaa"⟩], [⟨1, 1, "bbb"⟩, ⟨2, 1, "cc"⟩]] ∧
    (chunk_transcript [⟨0, 1, "aaaa"⟩, ⟨1, 1, "bbb"⟩, ⟨2, 1, "cc"⟩] 8).flatten =
      [⟨0, 1, "aaaa"⟩, ⟨1, 1, "bbb"⟩, ⟨2, 1, "cc"⟩] :=
  ⟨rfl, (chunk_transcript_partitions [⟨0, 1, "aaaa"⟩, ⟨1, 1, "bbb"⟩, ⟨2, 1, "cc"⟩] 8).1⟩

/-! ### C4 — `retry_on_conditions` exhaustion behavior -/

/-- Dichotomy of the retry loop when every attempt raises: the loop ends
with the last raised error, wrapped in `RetryError` iff it matches a
condition, re-raised unchanged otherwise. -/
theorem retryGo_last_error {E A : Type} (conds : List (E → Bool))
    (f : Nat → Except E A) (errs : Nat → E) (hf : ∀ n, f n = .error (errs n)) :
    ∀ (fuel : Nat), 1 ≤ fuel → ∀ (start : Nat),
      (∃ e, retryGo conds f start fuel = .exhausted e ∧ shouldRetry conds e = true) ∨
      (∃ e, retryGo conds f start fuel = .original e ∧ shouldRetry conds e = false) := by
  intro fuel
  induction fuel with
  | zero => intro h; exact absurd h (by omega)
  | succ k ih =>
    intro _ start
    cases hsr : shouldRetry conds (errs start) with
    | false =>
      right
      refine ⟨errs start, ?_, hsr⟩
      cases k <;> simp [retryGo, hf start, hsr]
    | true =>
      cases k with
      | zero =>
        left
        refine ⟨errs start, ?_, hsr⟩
        simp [retryGo, hf start, hsr]
      | succ k' =>
        have hstep : retryGo conds f start (k' + 1 + 1) =
            retryGo conds f (start + 1) (k' + 1) := by
          simp [retryGo, hf start, hsr]
        rw [hstep]
        exact ih (by omega) (start + 1)

/-- C4: when the wrapped function raises on every attempt, the wrapper ends
with the last raised error: wrapped in `RetryError` (exhausted) iff that
error matches at least one condition, and re-raised as the original,
unwrapped exception otherwise.  Moreover a non-matching error on the very
first attempt settles the outcome without any further attempt: the result
is the re-raised first error for every implementation `g` that agrees with
`f` on attempt 0, whatever `g` would do on later attempts. -/
theorem retry_on_conditions_exhaustion {E A : Type} (conds : List (E → Bool))
    (maxAttempts : Nat) (f : Nat → Except E A) (errs : Nat → E)
    (hmax : 1 ≤ maxAttempts) (hf : ∀ n, f n = .error (errs n)) :
    ((∃ e, retry_on_conditions conds maxAttempts f = .exhausted e ∧
        shouldRetry conds e = true) ∨
      (∃ e, retry_on_conditions conds maxAttempts f = .original e ∧
        shouldRetry conds e = false)) ∧
    (shouldRetry conds (errs 0) = false →
      ∀ g : Nat → Except E A, g 0 = f 0 →
        retry_on_conditions conds maxAttempts g = .original (errs 0)) := by
  constructor
  · exact retryGo_last_error conds f errs hf maxAttempts hmax 0
  · intro h0 g hg
    obtain ⟨k, rfl⟩ : ∃ k, maxAttempts = k + 1 := ⟨maxAttempts - 1, by omega⟩
    have hg0 : g 0 = .error (errs 0) := by rw [hg, hf 0]
    cases k <;> simp [retry_on_conditions, retryGo, hg0, h0]

/-- C4 witness: one concrete non-retryable failure (`"fatal"` matches no
condition) is re-raised unchanged under `max_attempts = 2`. -/
theorem retry_on_conditions_exhaustion_witness :
    retry_on_conditions [fun s => s == "busy"] 2
      (fun _ => (Except.error "fatal" : Except String Unit)) = .original "fatal" ∧
    shouldRetry [fun s => s == "busy"] "fatal" = false :=
  ⟨(retry_on_conditions_exhaustion [fun s => s == "busy"] 2
      (fun _ => (Except.error "fatal" : Except String Unit)) (fun _ => "fatal")
      (by omega) (fun _ => rfl)).2 (by decide)
      (fun _ => (Except.error "fatal" : Except String Unit)) rfl,
    by decide⟩

/-! ### C7 — `add_multiple` silently absorbs every per-line `ValueError` -/

/-- C7 (counterexample): the claim that only duplicate-check failures are
silently skipped while malformed URLs, dangerous categories and a full
queue "propagate to the caller" is false.  Each of those three `add`
failures is a `ValueError`, and `add_multiple`'s `except ValueError:
continue` absorbs it: the call returns normally with the line skipped and
the queue unchanged.  (`(fun _ => ("t", "i"))` supplies timestamp/id;
`"https://www.youtube.com/watch?v=dQw4w9WgXcQ"` is a well-formed URL, so
the middle case fails on the category and the last on the size limit.) -/
theorem add_multiple_absorbs_all_counterexample :
    q_add [] 1000 "not a url" none none none "t" "i" =
      .error (.invalidUrl "not a url") ∧
    q_add_multiple (fun _ => ("t", "i")) 1000 none ["not a url"] [] 0 = ([], []) ∧
    q_add [] 1000 "https://www.youtube.com/watch?v=dQw4w9WgXcQ" (some "../evil")
      none none "t" "i" = .error .dangerousCategory ∧
    q_add_multiple (fun _ => ("t", "i")) 1000 (some "../evil")
      ["https://www.youtube.com/watch?v=dQw4w9WgXcQ"] [] 0 = ([], []) ∧
    q_add [] 0 "https://www.youtube.com/watch?v=dQw4w9WgXcQ" none none none "t" "i" =
      .error (.queueFull 0) ∧
    q_add_multiple (fun _ => ("t", "i")) 0 none
      ["https://www.youtube.com/watch?v=dQw4w9WgXcQ"] [] 0 = ([], []) :=
  ⟨rfl, rfl, rfl, rfl, rfl, rfl⟩

/-- C7 (amended): in `add_multiple`, every non-blank, non-`#` line whose
`add` raises a `ValueError` — whatever the kind: malformed URL, dangerous
category, full queue, or duplicate — is silently skipped, leaving the queue
state unchanged for that line; no per-line validation failure propagates. -/
theorem add_multiple_skips_any_add_failure (fresh : Nat → String × String)
    (maxSize : Nat) (cat : Option String) (url : String) (rest : List String)
    (items : List QueueItem) (k : Nat) (err : QueueError)
    (hne : (pyStripChars url.data).isEmpty = false)
    (hnh : ((pyStripChars url.data).head? == some '#') = false)
    (herr : q_add items maxSize ⟨pyStripChars url.data⟩ cat none none
      (fresh k).1 (fresh k).2 = .error err) :
    q_add_multiple fresh maxSize cat (url :: rest) items k =
      q_add_multiple fresh maxSize cat rest items k := by
  simp only [q_add_multiple, hne, hnh, Bool.or_self, Bool.or_false,
    Bool.false_or, if_false, herr, ite_self]

/-- C7 witness: the amended theorem applied to the line `"not a url"` over
the empty queue. -/
theorem add_multiple_skips_any_add_failure_witness :
    (pyStripChars "not a url".data).isEmpty = false ∧
    q_add_multiple (fun _ => ("t", "i")) 1000 none ["not a url"] [] 0 =
      q_add_multiple (fun _ => ("t", "i")) 1000 none [] [] 0 :=
  ⟨by decide,
    add_multiple_skips_any_add_failure (fun _ => ("t", "i")) 1000 none
      "not a url" [] [] 0 (.invalidUrl "not a url") (by decide) (by decide) rfl⟩

/-! ### C8 — status transitions are not one-directional -/

/-- C8 (counterexample): the claim that no sequence of queue operations
moves an item backwards along `pending → processing → completed/failed`
(except failed→pending retry) is false: `update_status` applies any
requested status unconditionally, so after `add` and
`update_status(completed)`, a further `update_status(pending)` moves the
item from `completed` (rank 2) back to `pending` (rank 0) — a backward
transition that is not the failed→pending retry. -/
theorem update_status_backward_counterexample :
    q_add [] 1000 "https://www.youtube.com/watch?v=dQw4w9WgXcQ" none none none
        "t0" "i1" =
      .ok ([⟨"https://www.youtube.com/watch?v=dQw4w9WgXcQ", none, .pending, none,
              none, none, none, "t0", none, "i1"⟩],
           ⟨"https://www.youtube.com/watch?v=dQw4w9WgXcQ", none, .pending, none,
              none, none, none, "t0", none, "i1"⟩) ∧
    q_update_status
        [⟨"https://www.youtube.com/watch?v=dQw4w9WgXcQ", none, .pending, none,
            none, none, none, "t0", none, "i1"⟩] "i1" .completed none none "t1" =
      .ok [⟨"https://www.youtube.com/watch?v=dQw4w9WgXcQ", none, .completed, none,
              none, none, none, "t0", some "t1", "i1"⟩] ∧
    q_update_status
        [⟨"https://www.youtube.com/watch?v=dQw4w9WgXcQ", none, .completed, none,
            none, none, none, "t0", some "t1", "i1"⟩] "i1" .pending none none "t2" =
      .ok [⟨"https://www.youtube.com/watch?v=dQw4w9WgXcQ", none, .pending, none,
              none, none, none, "t0", some "t1", "i1"⟩] ∧
    statusRank QueueStatus.pending < statusRank QueueStatus.completed ∧
    QueueStatus.completed ≠ QueueStatus.failed :=
  ⟨rfl, rfl, rfl, by decide, by decide⟩

/-- C8 (amended): `update_status` enforces no ordering at all — on success
the new state is the old one with the first id-matched item's status set to
exactly the requested status (and the conditional `error` / `output_path` /
`processed_at` updates); hence the documented one-directional discipline,
with failed→pending retry as the only exception, is caller convention, and
a direct `update_status` call can equally move an item backwards. -/
theorem update_status_sets_requested_status (items : List QueueItem) (iid : String)
    (st : QueueStatus) (err out : Option String) (now : String)
    (items' : List QueueItem)
    (h : q_update_status items iid st err out now = .ok items') :
    ∃ k, ∃ hk : k < items.length,
      (items.get ⟨k, hk⟩).id = iid ∧
      items' = items.set k (updStatusItem (items.get ⟨k, hk⟩) st err out now) ∧
      (updStatusItem (items.get ⟨k, hk⟩) st err out now).status = st := by
  induction items generalizing items' with
  | nil => simp [q_update_status] at h
  | cons it rest ih =>
    simp only [q_update_status] at h
    split at h
    case isTrue hid =>
      cases h
      exact ⟨0, by simp, eq_of_beq hid, by simp, rfl⟩
    case isFalse hid =>
      cases hrec : q_update_status rest iid st err out now with
      | ok rest' =>
        rw [hrec] at h
        cases h
        obtain ⟨k, hk, h1, h2, h3⟩ := ih rest' hrec
        exact ⟨k + 1, by simpa using Nat.succ_lt_succ hk, h1, by simp [h2], h3⟩
      | error e =>
        rw [hrec] at h
        cases h

/-- C8 witness: the amended theorem applied to a singleton queue whose item
is moved (backwards) from `completed` to `pending`. -/
theorem update_status_sets_requested_status_witness :
    ([⟨"u", none, QueueStatus.completed, none, none, none, none, "t0", some "t1",
        "i1"⟩] : List QueueItem).length = 1 ∧
    ∃ k, ∃ hk : k < ([⟨"u", none, QueueStatus.completed, none, none, none, none,
        "t0", some "t1", "i1"⟩] : List QueueItem).length,
      (([⟨"u", none, QueueStatus.completed, none, none, none, none, "t0",
          some "t1", "i1"⟩] : List QueueItem).get ⟨k, hk⟩).id = "i1" ∧
      [⟨"u", none, QueueStatus.pending, none, none, none, none, "t0", some "t1",
          "i1"⟩] =
        ([⟨"u", none, QueueStatus.completed, none, none, none, none, "t0",
            some "t1", "i1"⟩] : List QueueItem).set k
          (updStatusItem (([⟨"u", none, QueueStatus.completed, none, none, none,
              none, "t0", some "t1", "i1"⟩] : List QueueItem).get ⟨k, hk⟩)
            QueueStatus.pending none none "t2") ∧
      (updStatusItem (([⟨"u", none, QueueStatus.completed, none, none, none, none,
          "t0", some "t1", "i1"⟩] : List QueueItem).get ⟨k, hk⟩)
        QueueStatus.pending none none "t2").status = QueueStatus.pending :=
  ⟨rfl,
    update_status_sets_requested_status
      [⟨"u", none, QueueStatus.completed, none, none, none, none, "t0", some "t1",
          "i1"⟩] "i1" QueueStatus.pending none none "t2"
      [⟨"u", none, QueueStatus.pending, none, none, none, none, "t0", some "t1",
          "i1"⟩] rfl⟩

/-! ### C9 — `update_status` with an absent `error`/`output_path` argument
is a no-op on that field -/

/-- Frame property of `update_status` for arbitrary optional arguments:
the `if error:` and `if output_path:` guards are independent, so whenever
the respective argument is non-truthy that field survives unchanged in
every item. -/
theorem q_update_status_fields (items : List QueueItem) (iid : String)
    (st : QueueStatus) (err out : Option String) (now : String)
    (items' : List QueueItem)
    (h : q_update_status items iid st err out now = .ok items') :
    List.Forall₂ (fun (a b : QueueItem) =>
      (pyTruthy err = false → b.error = a.error) ∧
      (pyTruthy out = false → b.output_path = a.output_path)) items items' := by
  induction items generalizing items' with
  | nil => simp [q_update_status] at h
  | cons it rest ih =>
    simp only [q_update_status] at h
    split at h
    case isTrue =>
      cases h
      refine List.Forall₂.cons ⟨?_, ?_⟩
        (List.forall₂_same.mpr fun x _ => ⟨fun _ => rfl, fun _ => rfl⟩)
      · intro he
        simp [updStatusItem, he]
      · intro ho
        simp [updStatusItem, ho]
    case isFalse =>
      cases hrec : q_update_status rest iid st err out now with
      | ok rest' =>
        rw [hrec] at h
        cases h
        exact List.Forall₂.cons ⟨fun _ => rfl, fun _ => rfl⟩ (ih rest' hrec)
      | error e =>
        rw [hrec] at h
        cases h

/-- C9: in every call to `update_status` whose `error` argument is absent
(`None`), each item's stored `error` field is left unchanged — whatever the
`output_path` argument is (e.g. the completion call that supplies only
`output_path`); so retrying a failed item back to `pending` through
`update_status` alone does not clear the recorded error message.
Symmetrically, whenever the `output_path` argument is absent, each item's
stored `output_path` is left unchanged, whatever the `error` argument. -/
theorem update_status_keeps_error_and_output (items : List QueueItem)
    (iid : String) (st : QueueStatus) (now : String) :
    (∀ (out : Option String) (items' : List QueueItem),
      q_update_status items iid st none out now = .ok items' →
      List.Forall₂ (fun (a b : QueueItem) => b.error = a.error) items items') ∧
    (∀ (err : Option String) (items' : List QueueItem),
      q_update_status items iid st err none now = .ok items' →
      List.Forall₂ (fun (a b : QueueItem) => b.output_path = a.output_path)
        items items') := by
  constructor
  · intro out items' h
    exact List.Forall₂.imp (fun _ _ hab => hab.1 rfl)
      (q_update_status_fields items iid st none out now items' h)
  · intro err items' h
    exact List.Forall₂.imp (fun _ _ hab => hab.2 rfl)
      (q_update_status_fields items iid st err none now items' h)

/-- C9 witness: on a processing item with recorded error `"boom"` and
output path `"p0"`, the completion call (`error` absent, `output_path`
supplied) keeps the error, and a failure call (`output_path` absent,
`error` supplied) keeps the output path. -/
theorem update_status_keeps_error_and_output_witness :
    q_update_status
        [⟨"u", none, QueueStatus.processing, none, none, some "boom", some "p0",
            "t0", none, "i1"⟩] "i1" QueueStatus.completed none (some "p1") "t1" =
      .ok [⟨"u", none, QueueStatus.completed, none, none, some "boom", some "p1",
              "t0", some "t1", "i1"⟩] ∧
    List.Forall₂ (fun (a b : QueueItem) => b.error = a.error)
      [⟨"u", none, QueueStatus.processing, none, none, some "boom", some "p0",
          "t0", none, "i1"⟩]
      [⟨"u", none, QueueStatus.completed, none, none, some "boom", some "p1",
          "t0", some "t1", "i1"⟩] ∧
    q_update_status
        [⟨"u", none, QueueStatus.processing, none, none, some "boom", some "p0",
            "t0", none, "i1"⟩] "i1" QueueStatus.failed (some "e2") none "t1" =
      .ok [⟨"u", none, QueueStatus.failed, none, none, some "e2", some "p0",
              "t0", some "t1", "i1"⟩] ∧
    List.Forall₂ (fun (a b : QueueItem) => b.output_path = a.output_path)
      [⟨"u", none, QueueStatus.processing, none, none, some "boom", some "p0",
          "t0", none, "i1"⟩]
      [⟨"u", none, QueueStatus.failed, none, none, some "e2", some "p0", "t0",
          some "t1", "i1"⟩] :=
  ⟨rfl,
    (update_status_keeps_error_and_output
        [⟨"u", none, QueueStatus.processing, none, none, some "boom", some "p0",
            "t0", none, "i1"⟩] "i1" QueueStatus.completed "t1").1 (some "p1")
      [⟨"u", none, QueueStatus.completed, none, none, some "boom", some "p1",
          "t0", some "t1", "i1"⟩] rfl,
    rfl,
    (update_status_keeps_error_and_output
        [⟨"u", none, QueueStatus.processing, none, none, some "boom", some "p0",
            "t0", none, "i1"⟩] "i1" QueueStatus.failed "t1").2 (some "e2")
      [⟨"u", none, QueueStatus.failed, none, none, some "e2", some "p0", "t0",
          some "t1", "i1"⟩] rfl⟩

/-! ### C6 — metadata is carried forward by `save_transcript` -/

/-- C6: from no saved state, after `save_metadata(m)` alone,
`can_recover_from("transcript_fetched")` is false; after a subsequent
`save_transcript(t)` it becomes true, and `recover_metadata()` still
returns `m`, carried forward into the new record's
`metadata["video_meta"]`. -/
theorem recovery_transcript_carries_metadata (vid : String) (m : VideoMeta)
    (t : List TranscriptLine) :
    can_recover_from (some (save_metadata vid m)) "transcript_fetched" = false ∧
    can_recover_from (some (save_transcript vid t (some (save_metadata vid m))))
      "transcript_fetched" = true ∧
    recover_metadata (some (save_transcript vid t (some (save_metadata vid m)))) =
      some m :=
  ⟨rfl, rfl, rfl⟩

/-! ### C5 — the queue's URL pattern is strictly narrower than the
extractor's id extraction -/

/-- Projection of the anonymous `String` constructor, used to move between
`String` values and their character lists. -/
theorem strData_mk (l : List Char) : (String.mk l).data = l := rfl

/-- A character of the id class `[a-zA-Z0-9_-]` is never whitespace. -/
theorem idChar_not_space (c : Char) (h : isIdChar c = true) :
    isPySpace c = false := by
  cases hs : isPySpace c
  · rfl
  · exfalso
    simp only [isPySpace, Bool.or_eq_true, beq_iff_eq] at hs
    rcases hs with ((((rfl | rfl) | rfl) | rfl) | rfl) | rfl <;>
      exact absurd h (by decide)

/-- Lemma: `dropWhile` is the identity on a list with no whitespace. -/
theorem dropWhile_no_space (m : List Char)
    (h : ∀ c ∈ m, isPySpace c = false) : m.dropWhile isPySpace = m := by
  cases m with
  | nil => rfl
  | cons a t =>
    rw [List.dropWhile_cons, h a (by simp)]
    simp

/-- Lemma: `str.strip()` is the identity on a string with no whitespace. -/
theorem pyStrip_no_space (l : List Char)
    (h : ∀ c ∈ l, isPySpace c = false) : pyStripChars l = l := by
  unfold pyStripChars
  rw [dropWhile_no_space l h,
    dropWhile_no_space l.reverse (fun c hc => h c (List.mem_reverse.mp hc)),
    List.reverse_reverse]

/-- Lemma: `([a-zA-Z0-9_-]{11})` succeeds on an 11-character id. -/
theorem takeId11_of (cid : List Char) (hlen : cid.length = 11)
    (hall : cid.all isIdChar = true) : takeId11 cid = some cid := by
  have ht : cid.take 11 = cid := by
    rw [← hlen]
    exact List.take_length cid
  simp only [takeId11, ht]
  rw [if_pos ⟨hlen, hall⟩]

/-- The first extractor pattern scanned over an `embed/`-shaped URL: the
scan fails at the eleven positions preceding `youtube.com/embed/`, matches
the `embed/` alternative there, and otherwise continues past it. -/
theorem searchPat1_embed (r : List Char) :
    searchPat1 ("https://www.youtube.com/embed/".data ++ r) =
      (takeId11 r).orElse fun _ =>
        searchPat1 ("outube.com/embed/".data ++ r) := rfl

/-- Lemma: `add` rejects any URL failing the queue pattern, reporting the
(stripped) URL in an invalid-argument failure, before any other check. -/
theorem q_add_invalid (items : List QueueItem) (maxSize : Nat) (url : String)
    (cat title channel : Option String) (addedAt iid : String)
    (h : validate_youtube_url ⟨pyStripChars url.data⟩ = false) :
    q_add items maxSize url cat title channel addedAt iid =
      .error (.invalidUrl ⟨pyStripChars url.data⟩) := by
  simp only [q_add, h, Bool.not_false, if_true]

/-- C5: for every 11-character id, the `embed/`-shaped URL
`https://www.youtube.com/embed/<id>` is rejected by `ProcessingQueue.add`
with an invalid-URL failure (whatever the queue state, size limit and
category), while the Core Extractor's `_extract_video_id` successfully
extracts exactly that id from the same URL — the queue's URL-acceptance
predicate is strictly narrower than the extractor's id-extraction
predicate. -/
theorem queue_rejects_embed_extractor_parses (cid : List Char)
    (hlen : cid.length = 11) (hall : cid.all isIdChar = true) :
    (∀ (items : List QueueItem) (maxSize : Nat)
        (cat title channel : Option String) (addedAt iid : String),
      q_add items maxSize ⟨"https://www.youtube.com/embed/".data ++ cid⟩
          cat title channel addedAt iid =
        .error (.invalidUrl ⟨"https://www.youtube.com/embed/".data ++ cid⟩)) ∧
    ∀ md5hex : List Char → List Char,
      extract_video_id md5hex ("https://www.youtube.com/embed/".data ++ cid) =
        cid := by
  have hspace : ∀ c ∈ ("https://www.youtube.com/embed/".data ++ cid),
      isPySpace c = false := by
    intro c hc
    rcases List.mem_append.mp hc with h | h
    · clear hc
      revert h
      revert c
      decide
    · exact idChar_not_space c (List.all_eq_true.mp hall c h)
  have hstrip : pyStripChars ("https://www.youtube.com/embed/".data ++ cid) =
      "https://www.youtube.com/embed/".data ++ cid := pyStrip_no_space _ hspace
  have hmatch : queueReMatch ("https://www.youtube.com/embed/".data ++ cid) =
      false := rfl
  have hval : validate_youtube_url ⟨"https://www.youtube.com/embed/".data ++ cid⟩ =
      false := by
    simp only [validate_youtube_url, strData_mk, hstrip, hmatch, ite_self]
  constructor
  · intro items maxSize cat title channel addedAt iid
    have h1 : validate_youtube_url
        ⟨pyStripChars (String.mk ("https://www.youtube.com/embed/".data ++ cid)).data⟩ =
        false := by
      rw [strData_mk, hstrip]
      exact hval
    have h2 := q_add_invalid items maxSize
      ⟨"https://www.youtube.com/embed/".data ++ cid⟩ cat title channel addedAt iid h1
    rw [strData_mk, hstrip] at h2
    exact h2
  · intro md5hex
    have hid : takeId11 cid = some cid := takeId11_of cid hlen hall
    have hkey : searchPat1 ("https://www.youtube.com/embed/".data ++ cid) =
        some cid := by
      rw [searchPat1_embed cid, hid]
      rfl
    simp only [extract_video_id, hkey]

/-- C5 witness: the concrete id `dQw4w9WgXcQ` — the embed URL is rejected
by `add` on the empty queue and parsed by `_extract_video_id`. -/
theorem queue_rejects_embed_extractor_parses_witness :
    ("dQw4w9WgXcQ".data).length = 11 ∧
    q_add [] 1000 ⟨"https://www.youtube.com/embed/".data ++ "dQw4w9WgXcQ".data⟩
        none none none "t0" "i1" =
      .error (.invalidUrl
        ⟨"https://www.youtube.com/embed/".data ++ "dQw4w9WgXcQ".data⟩) ∧
    extract_video_id (fun _ => [])
        ("https://www.youtube.com/embed/".data ++ "dQw4w9WgXcQ".data) =
      "dQw4w9WgXcQ".data :=
  ⟨by decide,
    (queue_rejects_embed_extractor_parses "dQw4w9WgXcQ".data (by decide)
        (by decide)).1 [] 1000 none none none "t0" "i1",
    (queue_rejects_embed_extractor_parses "dQw4w9WgXcQ".data (by decide)
        (by decide)).2 (fun _ => [])⟩

/-! ### C10 — extraction succeeds beyond the three documented shapes via
the `[?&]v=` fallback pattern -/

/-- C10: there are URLs matching none of the three documented shapes
(`watch?v=`, `youtu.be/`, `embed/` — i.e. the first pattern finds nothing)
from which `_extract_video_id` still returns an 11-character id rather than
the md5 fallback: a shorts URL carrying `?v=` and a playlist URL carrying
`&v=` both yield that parameter's 11-character value, for every md5
oracle. -/
theorem extract_video_id_v_param_fallback (md5hex : List Char → List Char) :
    searchPat1 "https://www.youtube.com/shorts/abc?v=dQw4w9WgXcQ".data = none ∧
    extract_video_id md5hex
        "https://www.youtube.com/shorts/abc?v=dQw4w9WgXcQ".data =
      "dQw4w9WgXcQ".data ∧
    searchPat1 "https://www.youtube.com/playlist?list=PL123&v=dQw4w9WgXcQ".data =
      none ∧
    extract_video_id md5hex
        "https://www.youtube.com/playlist?list=PL123&v=dQw4w9WgXcQ".data =
      "dQw4w9WgXcQ".data ∧
    ("dQw4w9WgXcQ".data).length = 11 :=
  ⟨rfl, rfl, rfl, rfl, rfl⟩
